import Mathlib

/-!
Verification of the Emmet autocomplete provider
(`src/autocomplete/provider.ts`) of the nova-plugin repository.

The provider's external collaborators (activation-context resolution,
abbreviation extraction, expansion engine, output-option serialization,
syntax classification, tracking gate) are modelled as components of an
environment record `Env`; the document is a character list inside it.
The per-surface tracker slot is passed explicitly as `Option EmmetTracker`
state, and the tracker start/stop mutations of one completion request are
additionally recorded as a list of `TrackEvent`s.
-/

namespace NovaEmmet

/-- Reason of a completion request: explicit user invocation or implicit
typing (mirrors the check `ctx.reason === CompletionReason.Invoke`). -/
inductive Reason where
  | invoke
  | character
deriving DecidableEq, Repr

/-- Activation context resolved at a document position: syntax kind string,
an opaque context payload, and the inline/block flag
(mirrors `ActivationContext` from `./context`). -/
structure ActivationContext where
  stx : String
  context : String
  inline : Bool
deriving DecidableEq, Repr

/-- Output options relevant to the provider: the field-placeholder renderer,
the indent strings overridden by `getPreviewConfig`, and an opaque remainder
standing for all other option entries. -/
structure Options where
  field : Nat → String → String
  indent : String
  baseIndent : String
  rest : String

/-- Emmet user configuration as built by `getConfig`: syntax type, syntax
kind, context payload and output options. -/
structure UserConfig where
  type : String
  stx : String
  context : String
  options : Options

/-- Modelled from the spec: the Abbreviation Tracker record of §4.1 (the
`./tracker` module is not part of the provided sources). A Tracker is a
passive record of the tracked range `[start, end)` merged, as in
`Object.assign(tracker, abbrCtx, { options })`, with the activation context
and the output options recorded at tracking-start time. -/
structure EmmetTracker where
  range : Nat × Nat
  actx : ActivationContext
  options : Options

/-- Completion request context: document position, line text up to the
position, and the invocation reason. -/
structure CompletionContext where
  position : Nat
  line : String
  reason : Reason

/-- Completion item as built by `createExpandAbbreviationCompletion`:
label, kind, tokenize flag, target range, insertion text, detail label
and documentation. -/
structure CompletionItem where
  label : String
  kind : String
  tokenize : Bool
  range : Nat × Nat
  insertText : String
  detail : String
  documentation : String

/-- Environment of one completion request: the document text and the
external collaborators, all pure (spec §5: calls are synchronous and
side-effect-free). `resolveCtx` is `getAbbreviationContext`, `extract`
and `expand` the expansion engine, `allowTracking` the host gate,
`getOutputOptions` and `getSyntaxType` the option/syntax externals. -/
structure Env where
  doc : List Char
  allowTracking : Bool
  resolveCtx : Nat → Option ActivationContext
  extract : Nat → UserConfig → Option (Nat × Nat)
  expand : String → UserConfig → Except Unit String
  getOutputOptions : Bool → Options
  getSyntaxType : String → String

/-- Document text in the offset range `[a, b)`
(mirrors `editor.getTextInRange`). -/
def textInRange (env : Env) (a b : Nat) : String :=
  String.mk ((env.doc.drop a).take (b - a))

/-- Tracker start/stop mutations performed during one completion request. -/
inductive TrackEvent where
  | start (s e : Nat)
  | stop
deriving DecidableEq, Repr

/-- Whitespace per the JavaScript regular-expression class backslash-s. -/
def jsSpace (c : Char) : Bool :=
  c = ' ' || c = '\t' || c = '\n' || c = '\r' ||
  c.toNat = 0x0b || c.toNat = 0x0c || c.toNat = 0xa0 || c.toNat = 0x1680 ||
  (0x2000 ≤ c.toNat && c.toNat ≤ 0x200a) ||
  c.toNat = 0x2028 || c.toNat = 0x2029 || c.toNat = 0x202f ||
  c.toNat = 0x205f || c.toNat = 0x3000 || c.toNat = 0xfeff

/-- First character class of the trigger pattern: whitespace or a closing
angle bracket (the class made of backslash-s and the greater-than sign). -/
def isBound (c : Char) : Bool :=
  jsSpace c || c = '>'

/-- Second character class of the trigger pattern: an ASCII letter, a dot,
a hash, an opening square bracket or an opening parenthesis. -/
def isAbbrStart (c : Char) : Bool :=
  c.isAlpha || c = '.' || c = '#' || c = '[' || c = '('

/-- Last `n` characters of a string (mirrors `s.slice(-n)`). -/
def sliceLast (s : String) (n : Nat) : List Char :=
  s.data.drop (s.data.length - n)

/-- Test of the anchored trigger regular expression (an optional bound
character followed by exactly one abbreviation-start character) against
the at-most-two-character line suffix. -/
def triggerMatch : List Char → Bool
  | [c] => isAbbrStart c
  | [b, c] => isBound b && isAbbrStart c
  | _ => false

/-- The hard-coded bracket pair table `pairs`, as a partial map from an
opening bracket to its closing bracket. -/
def pairs : Char → Option Char
  | '{' => some '}'
  | '[' => some ']'
  | '(' => some ')'
  | _ => none

/-- Configuration derived from an activation context (mirrors `getConfig`). -/
def getConfig (env : Env) (abbrCtx : ActivationContext) : UserConfig :=
  { type := env.getSyntaxType abbrCtx.stx
  , stx := abbrCtx.stx
  , context := abbrCtx.context
  , options := env.getOutputOptions abbrCtx.inline }

/-- Field renderer of the preview configuration: returns the placeholder
unchanged (mirrors `previewField`). -/
def previewField (_ : Nat) (placeholder : String) : String :=
  placeholder

/-- Preview configuration: the normal configuration with the field renderer,
indent and base indent overridden (mirrors `getPreviewConfig`). -/
def getPreviewConfig (config : UserConfig) : UserConfig :=
  { config with
      options :=
        { config.options with
            field := previewField
          , indent := "  "
          , baseIndent := "" } }

/-- Implicit-typing tracking start (mirrors `startAbbreviationTracking`):
tests the two-character line suffix against the trigger pattern, resolves
the activation context, applies the bracket-pairing heuristic, and merges
the started tracker with the context and the recorded output options. -/
def startAbbreviationTracking (env : Env) (ctx : CompletionContext) :
    Option EmmetTracker :=
  let pre := sliceLast ctx.line 2
  let pos := ctx.position
  if triggerMatch pre then
    match env.resolveCtx pos with
    | none => none
    | some abbrCtx =>
      let start := pos - 1
      let stop0 := pos
      let stop1 :=
        match sliceLast ctx.line 1 with
        | [lastCh] =>
          match pairs lastCh with
          | some close =>
            if textInRange env pos (min (pos + 1) env.doc.length)
                = String.mk [close]
            then stop0 + 1
            else stop0
          | none => stop0
        | _ => stop0
      some { range := (start, stop1)
           , actx := abbrCtx
           , options := env.getOutputOptions abbrCtx.inline }
  else none

/-- Explicit-invocation tracking start (mirrors
`extractAbbreviationTracking`): resolves the activation context, asks the
extraction facility for an abbreviation boundary, and merges the started
tracker with the context and the recorded output options. -/
def extractAbbreviationTracking (env : Env) (ctx : CompletionContext) :
    Option EmmetTracker :=
  match env.resolveCtx ctx.position with
  | none => none
  | some abbrCtx =>
    match env.extract ctx.position (getConfig env abbrCtx) with
    | none => none
    | some ab =>
      some { range := (ab.1, ab.2)
           , actx := abbrCtx
           , options := env.getOutputOptions abbrCtx.inline }

/-- Candidate synthesis (mirrors `createExpandAbbreviationCompletion`):
reads the tracked text, expands it under the normal and the preview
configuration — either call may fail — and on success builds the
completion item. -/
def createExpandAbbreviationCompletion (env : Env) (tracker : EmmetTracker)
    (config : UserConfig) : Except Unit CompletionItem :=
  match env.expand (textInRange env tracker.range.1 tracker.range.2) config with
  | Except.error e => Except.error e
  | Except.ok snippet =>
    match env.expand (textInRange env tracker.range.1 tracker.range.2)
        (getPreviewConfig config) with
    | Except.error e => Except.error e
    | Except.ok preview =>
      Except.ok
        { label := textInRange env tracker.range.1 tracker.range.2
        , kind := "Expression"
        , tokenize := true
        , range := tracker.range
        , insertText := snippet
        , detail := "Emmet"
        , documentation := preview }

/-- Result of one completion request: the returned items, the tracker slot
after the request, and the tracker mutations performed. -/
structure RequestResult where
  items : List CompletionItem
  tracker : Option EmmetTracker
  events : List TrackEvent

/-- Candidate-synthesis half of `provideCompletionItems` (its lines guarded
by `if (tracker)`): with a tracker at hand, build the candidate, and on
expansion failure dispose the tracker exactly when the caret position
equals the tracked range's end offset (`ctx.position === tracker.range[1]`).
`startEvents` carries the tracker mutations already performed this request. -/
def withTracker (env : Env) (pos : Nat) (tracker : EmmetTracker)
    (startEvents : List TrackEvent) : RequestResult :=
  match createExpandAbbreviationCompletion env tracker (getConfig env tracker.actx) with
  | Except.ok item => ⟨[item], some tracker, startEvents⟩
  | Except.error _ =>
    if pos = tracker.range.2 then
      ⟨[], none, startEvents ++ [TrackEvent.stop]⟩
    else
      ⟨[], some tracker, startEvents⟩

/-- One completion request (mirrors `provideCompletionItems`): reuse the
live tracker if any, otherwise try the extraction path on explicit invoke
or the implicit-start path when tracking is allowed; then synthesize
through `withTracker`. -/
def provideCompletionItems (env : Env) (st : Option EmmetTracker)
    (ctx : CompletionContext) : RequestResult :=
  match st with
  | some tracker => withTracker env ctx.position tracker []
  | none =>
    match (if ctx.reason = Reason.invoke then
            extractAbbreviationTracking env ctx
          else if env.allowTracking then
            startAbbreviationTracking env ctx
          else
            none) with
    | none => ⟨[], none, []⟩
    | some tracker =>
      withTracker env ctx.position tracker
        [TrackEvent.start tracker.range.1 tracker.range.2]

/-- Sample output options for concrete evaluations. -/
def wOptions : Options :=
  { field := fun i p => toString i ++ p
  , indent := "\t"
  , baseIndent := ">>"
  , rest := "other" }

/-- Sample activation context for concrete evaluations. -/
def wCtxInfo : ActivationContext :=
  { stx := "html", context := "body", inline := false }

/-- Sample tracker over the range `[0, 2)` for concrete evaluations. -/
def wTracker : EmmetTracker :=
  { range := (0, 2), actx := wCtxInfo, options := wOptions }

/-- Sample environment whose expansion engine always fails. -/
def wEnvFail : Env :=
  { doc := "ab".data
  , allowTracking := true
  , resolveCtx := fun _ => some wCtxInfo
  , extract := fun _ _ => none
  , expand := fun _ _ => Except.error ()
  , getOutputOptions := fun _ => wOptions
  , getSyntaxType := fun _ => "markup" }

/-- Sample environment whose expansion engine succeeds, tagging the result
with the configured indent so the two configurations are distinguishable. -/
def wEnvOk : Env :=
  { doc := "ab".data
  , allowTracking := true
  , resolveCtx := fun _ => some wCtxInfo
  , extract := fun _ _ => some (0, 2)
  , expand := fun a cfg => Except.ok (a ++ cfg.options.indent)
  , getOutputOptions := fun _ => wOptions
  , getSyntaxType := fun _ => "markup" }

/-- Sample environment whose document is an auto-paired bracket pair. -/
def wEnvPair : Env :=
  { wEnvOk with doc := "()".data }

end NovaEmmet

namespace NovaEmmet

theorem startAbbreviationTracking_isSome (env : Env) (ctx : CompletionContext) :
    (startAbbreviationTracking env ctx).isSome =
      (triggerMatch (sliceLast ctx.line 2) &&
        (env.resolveCtx ctx.position).isSome) := by
  unfold startAbbreviationTracking
  cases htrig : triggerMatch (sliceLast ctx.line 2)
  · simp [htrig]
  · simp only [htrig, if_true]
    cases hr : env.resolveCtx ctx.position <;> simp [hr]

theorem startAbbreviationTracking_range_fst (env : Env) (ctx : CompletionContext)
    (t : EmmetTracker) (h : startAbbreviationTracking env ctx = some t) :
    t.range.1 = ctx.position - 1 := by
  unfold startAbbreviationTracking at h
  cases htrig : triggerMatch (sliceLast ctx.line 2)
  · simp [htrig] at h
  · simp only [htrig, if_true] at h
    cases hr : env.resolveCtx ctx.position
    · simp [hr] at h
    · simp only [hr, Option.some.injEq] at h
      subst h
      rfl

theorem startAbbreviationTracking_options (env : Env) (ctx : CompletionContext)
    (t : EmmetTracker) (h : startAbbreviationTracking env ctx = some t) :
    t.options = env.getOutputOptions t.actx.inline := by
  unfold startAbbreviationTracking at h
  cases htrig : triggerMatch (sliceLast ctx.line 2)
  · simp [htrig] at h
  · simp only [htrig, if_true] at h
    cases hr : env.resolveCtx ctx.position
    · simp [hr] at h
    · simp only [hr, Option.some.injEq] at h
      subst h
      rfl

theorem extractAbbreviationTracking_options (env : Env) (ctx : CompletionContext)
    (t : EmmetTracker) (h : extractAbbreviationTracking env ctx = some t) :
    t.options = env.getOutputOptions t.actx.inline := by
  unfold extractAbbreviationTracking at h
  cases hr : env.resolveCtx ctx.position
  · simp [hr] at h
  · simp only [hr] at h
    cases he : env.extract ctx.position (getConfig env (by assumption))
    · simp [he] at h
    · simp only [he, Option.some.injEq] at h
      subst h
      rfl

theorem withTracker_items_len (env : Env) (pos : Nat) (tracker : EmmetTracker)
    (evs : List TrackEvent) :
    (withTracker env pos tracker evs).items.length ≤ 1 := by
  unfold withTracker
  cases h : createExpandAbbreviationCompletion env tracker (getConfig env tracker.actx) with
  | error e => by_cases hp : pos = tracker.range.2 <;> simp [hp]
  | ok item => simp

theorem withTracker_tracker (env : Env) (pos : Nat) (tracker : EmmetTracker)
    (evs : List TrackEvent) :
    (withTracker env pos tracker evs).tracker = some tracker ∨
    (withTracker env pos tracker evs).tracker = none := by
  unfold withTracker
  cases h : createExpandAbbreviationCompletion env tracker (getConfig env tracker.actx) with
  | error e =>
    by_cases hp : pos = tracker.range.2
    · right; simp [hp]
    · left; simp [hp]
  | ok item => left; simp

theorem withTracker_events (env : Env) (pos : Nat) (tracker : EmmetTracker)
    (evs : List TrackEvent) :
    (withTracker env pos tracker evs).events = evs ∨
    (withTracker env pos tracker evs).events = evs ++ [TrackEvent.stop] := by
  unfold withTracker
  cases h : createExpandAbbreviationCompletion env tracker (getConfig env tracker.actx) with
  | error e =>
    by_cases hp : pos = tracker.range.2
    · right; simp [hp]
    · left; simp [hp]
  | ok item => left; simp

end NovaEmmet

namespace NovaEmmet

/-- Claim C1 (disposal exactness and atomicity): for a request with a live
Tracker whose tracked text fails expansion, the request returns zero
candidates; the Tracker is disposed (the slot read by a subsequent
`getTracker` becomes absent) exactly when the request position equals the
Tracked Range's end offset, and is left unchanged and live otherwise. -/
theorem disposal_exactness (env : Env) (st : Option EmmetTracker)
    (ctx : CompletionContext) (t : EmmetTracker) (hst : st = some t)
    (hfail : createExpandAbbreviationCompletion env t (getConfig env t.actx)
      = Except.error ()) :
    (provideCompletionItems env st ctx).items = [] ∧
    (ctx.position = t.range.2 →
      (provideCompletionItems env st ctx).tracker = none) ∧
    (ctx.position ≠ t.range.2 →
      (provideCompletionItems env st ctx).tracker = some t) := by
  subst hst
  by_cases hp : ctx.position = t.range.2 <;>
    simp [provideCompletionItems, withTracker, hfail, hp]

/-- Claim C4 (candidate fidelity): with a live Tracker whose tracked text
expands successfully under both configurations, the request returns the
single candidate whose label is the tracked text, insertion text the
normal expansion, documentation the preview expansion, tokenize flag true,
target range the Tracked Range, and detail the constant string `Emmet`. -/
theorem candidate_fidelity (env : Env) (st : Option EmmetTracker)
    (ctx : CompletionContext) (t : EmmetTracker) (s p : String)
    (hst : st = some t)
    (hs : env.expand (textInRange env t.range.1 t.range.2)
        (getConfig env t.actx) = Except.ok s)
    (hp : env.expand (textInRange env t.range.1 t.range.2)
        (getPreviewConfig (getConfig env t.actx)) = Except.ok p) :
    (provideCompletionItems env st ctx).items =
      [{ label := textInRange env t.range.1 t.range.2
       , kind := "Expression"
       , tokenize := true
       , range := t.range
       , insertText := s
       , detail := "Emmet"
       , documentation := p }] := by
  subst hst
  simp [provideCompletionItems, withTracker,
    createExpandAbbreviationCompletion, hs, hp]

/-- Claim C5 (never-fail propagation): every completion request evaluates
to a result (the model is a total function, so no expansion failure is
raised to the host) carrying an ordered sequence of zero or one
candidates. -/
theorem never_fail_propagation (env : Env) (st : Option EmmetTracker)
    (ctx : CompletionContext) :
    (provideCompletionItems env st ctx).items.length ≤ 1 := by
  unfold provideCompletionItems
  cases st with
  | some t => exact withTracker_items_len env ctx.position t []
  | none =>
    cases h : (if ctx.reason = Reason.invoke then
          extractAbbreviationTracking env ctx
        else if env.allowTracking = true then
          startAbbreviationTracking env ctx
        else
          none) with
    | none => simp
    | some tr =>
      exact withTracker_items_len env ctx.position tr
        [TrackEvent.start tr.range.1 tr.range.2]

/-- Claim C6 (tracker reuse and no double tracking): when a live Tracker
exists for the surface, the request performs no `startTracking` call (no
start event is recorded: neither the extraction path nor the
implicit-start path runs), and the slot afterwards holds that same
Tracker or nothing — so at most one live Tracker per surface ever
exists. -/
theorem tracker_reuse_no_double (env : Env) (st : Option EmmetTracker)
    (ctx : CompletionContext) (t : EmmetTracker) (hst : st = some t) :
    (∀ s e, TrackEvent.start s e ∉ (provideCompletionItems env st ctx).events) ∧
    ((provideCompletionItems env st ctx).tracker = some t ∨
      (provideCompletionItems env st ctx).tracker = none) := by
  subst hst
  have hred : provideCompletionItems env (some t) ctx
      = withTracker env ctx.position t [] := rfl
  constructor
  · intro s e hmem
    rw [hred] at hmem
    rcases withTracker_events env ctx.position t [] with h | h <;>
      rw [h] at hmem <;> simp at hmem
  · rw [hred]
    exact withTracker_tracker env ctx.position t []

/-- Claim C8 (preview configuration frame): the preview configuration
agrees with the normal configuration on every field except that its field
renderer returns the placeholder unchanged, its indent is two spaces and
its base indent is empty; and in candidate synthesis the preview
expansion only becomes the documentation while the insertion text is the
normal expansion. -/
theorem preview_configuration_frame (config : UserConfig) (env : Env)
    (t : EmmetTracker) (s p : String)
    (hs : env.expand (textInRange env t.range.1 t.range.2) config
      = Except.ok s)
    (hp : env.expand (textInRange env t.range.1 t.range.2)
        (getPreviewConfig config) = Except.ok p) :
    (getPreviewConfig config).type = config.type ∧
    (getPreviewConfig config).stx = config.stx ∧
    (getPreviewConfig config).context = config.context ∧
    (getPreviewConfig config).options.rest = config.options.rest ∧
    (getPreviewConfig config).options.indent = "  " ∧
    (getPreviewConfig config).options.baseIndent = "" ∧
    (∀ i ph, (getPreviewConfig config).options.field i ph = ph) ∧
    createExpandAbbreviationCompletion env t config =
      Except.ok
        { label := textInRange env t.range.1 t.range.2
        , kind := "Expression"
        , tokenize := true
        , range := t.range
        , insertText := s
        , detail := "Emmet"
        , documentation := p } := by
  refine ⟨rfl, rfl, rfl, rfl, rfl, rfl, fun i ph => rfl, ?_⟩
  simp [createExpandAbbreviationCompletion, hs, hp]

/-- Claim C9 (extraction-miss handling): on explicit invoke with no live
Tracker, when the activation context does not resolve or the extraction
facility finds no boundary, no Tracker is created (the slot stays absent
and no tracking event occurs) and the request returns zero candidates. -/
theorem extraction_miss (env : Env) (ctx : CompletionContext)
    (hreason : ctx.reason = Reason.invoke)
    (hmiss : ∀ a, env.resolveCtx ctx.position = some a →
        env.extract ctx.position (getConfig env a) = none) :
    (provideCompletionItems env none ctx).tracker = none ∧
    (provideCompletionItems env none ctx).items = [] ∧
    (provideCompletionItems env none ctx).events = [] := by
  have hex : extractAbbreviationTracking env ctx = none := by
    unfold extractAbbreviationTracking
    cases hr : env.resolveCtx ctx.position with
    | none => rfl
    | some a => simp [hmiss a hr]
  simp [provideCompletionItems, hreason, hex]

/-- Claim C10 (success preserves the Tracker): with a live Tracker whose
tracked text expands successfully under both configurations, no
`stopTracking` call happens, and the same Tracker remains live after the
request, wherever the caret sits relative to the range end. -/
theorem success_preserves_tracker (env : Env) (st : Option EmmetTracker)
    (ctx : CompletionContext) (t : EmmetTracker) (item : CompletionItem)
    (hst : st = some t)
    (hok : createExpandAbbreviationCompletion env t (getConfig env t.actx)
      = Except.ok item) :
    (provideCompletionItems env st ctx).tracker = some t ∧
    TrackEvent.stop ∉ (provideCompletionItems env st ctx).events := by
  subst hst
  simp [provideCompletionItems, withTracker, hok]

end NovaEmmet

namespace NovaEmmet

/-- Claim C2 (implicit trigger precision): on an implicit request with
tracking allowed and no live Tracker, a tracking start happens if and only
if the two-character line suffix matches the trigger pattern and an
activation context resolves at the position; every started range has start
offset `position - 1`. -/
theorem implicit_trigger_precision (env : Env) (ctx : CompletionContext)
    (hreason : ctx.reason ≠ Reason.invoke)
    (hallow : env.allowTracking = true) :
    ((∃ s e, TrackEvent.start s e ∈
        (provideCompletionItems env none ctx).events) ↔
      (triggerMatch (sliceLast ctx.line 2) = true ∧
        (env.resolveCtx ctx.position).isSome = true)) ∧
    (∀ s e, TrackEvent.start s e ∈
        (provideCompletionItems env none ctx).events →
      s = ctx.position - 1) := by
  have hfresh : (if ctx.reason = Reason.invoke then
        extractAbbreviationTracking env ctx
      else if env.allowTracking = true then
        startAbbreviationTracking env ctx
      else
        none) = startAbbreviationTracking env ctx := by
    rw [if_neg hreason, if_pos hallow]
  have hsome := startAbbreviationTracking_isSome env ctx
  cases hs : startAbbreviationTracking env ctx with
  | none =>
    rw [hs] at hsome
    have hev : (provideCompletionItems env none ctx).events = [] := by
      unfold provideCompletionItems
      rw [hfresh, hs]
    constructor
    · constructor
      · rintro ⟨s, e, hmem⟩
        rw [hev] at hmem
        simp at hmem
      · rintro ⟨h1, h2⟩
        rw [h1, h2] at hsome
        simp at hsome
    · intro s e hmem
      rw [hev] at hmem
      simp at hmem
  | some t =>
    rw [hs] at hsome
    have hand : (triggerMatch (sliceLast ctx.line 2) &&
        (env.resolveCtx ctx.position).isSome) = true :=
      hsome.symm
    rw [Bool.and_eq_true] at hand
    have hred : provideCompletionItems env none ctx
        = withTracker env ctx.position t
            [TrackEvent.start t.range.1 t.range.2] := by
      unfold provideCompletionItems
      rw [hfresh, hs]
    have hmemstart : TrackEvent.start t.range.1 t.range.2 ∈
        (provideCompletionItems env none ctx).events := by
      rw [hred]
      rcases withTracker_events env ctx.position t
          [TrackEvent.start t.range.1 t.range.2] with h | h <;>
        rw [h] <;> simp
    constructor
    · constructor
      · intro _
        exact ⟨hand.1, hand.2⟩
      · intro _
        exact ⟨t.range.1, t.range.2, hmemstart⟩
    · intro s e hmem
      rw [hred] at hmem
      rcases withTracker_events env ctx.position t
          [TrackEvent.start t.range.1 t.range.2] with h | h <;>
        rw [h] at hmem <;> simp at hmem <;> rw [hmem.1] <;>
        exact startAbbreviationTracking_range_fst env ctx t hs

end NovaEmmet

namespace NovaEmmet

/-- Claim C3 (bracket-pairing extension): when an implicit tracking start
is triggered by an opening bracket of the pair table and the document
character right after the caret equals its matching closing bracket, the
started range's end is `position + 1`; otherwise the end is exactly the
position. (The trigger class admits only `(` and `[` of the table, so the
`{` case holds vacuously.) -/
theorem bracket_pairing_extension (env : Env) (ctx : CompletionContext)
    (t : EmmetTracker) (c close : Char)
    (hstart : startAbbreviationTracking env ctx = some t)
    (hlast : sliceLast ctx.line 1 = [c])
    (hpair : pairs c = some close) :
    (textInRange env ctx.position (min (ctx.position + 1) env.doc.length)
        = String.mk [close] → t.range.2 = ctx.position + 1) ∧
    (textInRange env ctx.position (min (ctx.position + 1) env.doc.length)
        ≠ String.mk [close] → t.range.2 = ctx.position) := by
  unfold startAbbreviationTracking at hstart
  cases htrig : triggerMatch (sliceLast ctx.line 2)
  · simp [htrig] at hstart
  · simp only [htrig, if_true] at hstart
    cases hr : env.resolveCtx ctx.position
    · simp [hr] at hstart
    · simp only [hr] at hstart
      simp only [hlast] at hstart
      simp only [hpair] at hstart
      by_cases hc : textInRange env ctx.position
          (min (ctx.position + 1) env.doc.length) = String.mk [close]
      · rw [if_pos hc] at hstart
        simp only [Option.some.injEq] at hstart
        subst hstart
        exact ⟨fun _ => rfl, fun hne => absurd hc hne⟩
      · rw [if_neg hc] at hstart
        simp only [Option.some.injEq] at hstart
        subst hstart
        exact ⟨fun heq => absurd heq hc, fun _ => rfl⟩

/-- Claim C7 (configuration stability): the configuration used to build a
candidate is derived by `getConfig` from the environment and the
activation-context fields stored on the Tracker alone — so with the
external collaborators pure (spec §5) it is the same value on every
request of the Tracker's lifetime — and for a Tracker created by either
start path its recorded formatting options coincide with the options of
that derived configuration. -/
theorem configuration_stability (env : Env) (ctx : CompletionContext)
    (t : EmmetTracker)
    (h : startAbbreviationTracking env ctx = some t ∨
         extractAbbreviationTracking env ctx = some t) :
    getConfig env t.actx =
      { type := env.getSyntaxType t.actx.stx
      , stx := t.actx.stx
      , context := t.actx.context
      , options := env.getOutputOptions t.actx.inline } ∧
    (getConfig env t.actx).options = t.options := by
  refine ⟨rfl, ?_⟩
  rcases h with h | h
  · exact (startAbbreviationTracking_options env ctx t h).symm
  · exact (extractAbbreviationTracking_options env ctx t h).symm

end NovaEmmet

namespace NovaEmmet

/-- Witness for the disposal-exactness theorem: a live tracker over
`[0, 2)`, an always-failing expansion engine, and the caret at offset 2
(exactly the range end). -/
theorem disposal_exactness_witness :
    (some wTracker = some wTracker) ∧
    (createExpandAbbreviationCompletion wEnvFail wTracker
        (getConfig wEnvFail wTracker.actx) = Except.error ()) ∧
    ((provideCompletionItems wEnvFail (some wTracker)
        ⟨2, "ab", Reason.character⟩).items = [] ∧
      ((2 : Nat) = wTracker.range.2 →
        (provideCompletionItems wEnvFail (some wTracker)
          ⟨2, "ab", Reason.character⟩).tracker = none) ∧
      ((2 : Nat) ≠ wTracker.range.2 →
        (provideCompletionItems wEnvFail (some wTracker)
          ⟨2, "ab", Reason.character⟩).tracker = some wTracker)) :=
  ⟨rfl, rfl, disposal_exactness wEnvFail (some wTracker)
    ⟨2, "ab", Reason.character⟩ wTracker rfl rfl⟩

/-- Witness for the implicit-trigger-precision theorem: an implicit
request on line suffix `d` with tracking allowed and a resolvable
activation context. -/
theorem implicit_trigger_precision_witness :
    ((⟨1, "d", Reason.character⟩ : CompletionContext).reason
        ≠ Reason.invoke) ∧
    (wEnvOk.allowTracking = true) ∧
    (((∃ s e, TrackEvent.start s e ∈
        (provideCompletionItems wEnvOk none
          ⟨1, "d", Reason.character⟩).events) ↔
      (triggerMatch (sliceLast "d" 2) = true ∧
        (wEnvOk.resolveCtx 1).isSome = true)) ∧
    (∀ s e, TrackEvent.start s e ∈
        (provideCompletionItems wEnvOk none
          ⟨1, "d", Reason.character⟩).events →
      s = 0)) :=
  ⟨by decide, rfl,
    implicit_trigger_precision wEnvOk ⟨1, "d", Reason.character⟩
      (by decide) rfl⟩

/-- Witness for the bracket-pairing theorem: implicit trigger on `(` with
the paired `)` right after the caret, yielding range `[0, 2)`. -/
theorem bracket_pairing_extension_witness :
    (startAbbreviationTracking wEnvPair ⟨1, "(", Reason.character⟩
        = some wTracker) ∧
    (sliceLast "(" 1 = ['(']) ∧
    (pairs '(' = some ')') ∧
    ((textInRange wEnvPair 1 (min 2 wEnvPair.doc.length)
        = String.mk [')'] → wTracker.range.2 = 2) ∧
      (textInRange wEnvPair 1 (min 2 wEnvPair.doc.length)
        ≠ String.mk [')'] → wTracker.range.2 = 1)) :=
  ⟨rfl, rfl, rfl,
    bracket_pairing_extension wEnvPair ⟨1, "(", Reason.character⟩
      wTracker '(' ')' rfl rfl rfl⟩

/-- Witness for the candidate-fidelity theorem: a live tracker over `ab`
with an expansion engine that appends the configured indent, so the
normal and preview expansions are distinguishable. -/
theorem candidate_fidelity_witness :
    (some wTracker = some wTracker) ∧
    (wEnvOk.expand (textInRange wEnvOk wTracker.range.1 wTracker.range.2)
        (getConfig wEnvOk wTracker.actx) = Except.ok "ab\t") ∧
    (wEnvOk.expand (textInRange wEnvOk wTracker.range.1 wTracker.range.2)
        (getPreviewConfig (getConfig wEnvOk wTracker.actx))
      = Except.ok "ab  ") ∧
    ((provideCompletionItems wEnvOk (some wTracker)
        ⟨2, "ab", Reason.character⟩).items =
      [{ label := textInRange wEnvOk wTracker.range.1 wTracker.range.2
       , kind := "Expression"
       , tokenize := true
       , range := wTracker.range
       , insertText := "ab\t"
       , detail := "Emmet"
       , documentation := "ab  " }]) :=
  ⟨rfl, rfl, rfl,
    candidate_fidelity wEnvOk (some wTracker) ⟨2, "ab", Reason.character⟩
      wTracker "ab\t" "ab  " rfl rfl rfl⟩

/-- Witness for the tracker-reuse theorem: a request that finds the live
tracker already present. -/
theorem tracker_reuse_no_double_witness :
    (some wTracker = some wTracker) ∧
    ((∀ s e, TrackEvent.start s e ∉
        (provideCompletionItems wEnvOk (some wTracker)
          ⟨2, "ab", Reason.character⟩).events) ∧
      ((provideCompletionItems wEnvOk (some wTracker)
          ⟨2, "ab", Reason.character⟩).tracker = some wTracker ∨
        (provideCompletionItems wEnvOk (some wTracker)
          ⟨2, "ab", Reason.character⟩).tracker = none)) :=
  ⟨rfl, tracker_reuse_no_double wEnvOk (some wTracker)
    ⟨2, "ab", Reason.character⟩ wTracker rfl⟩

/-- Witness for the configuration-stability theorem: the tracker started
implicitly over the bracket pair. -/
theorem configuration_stability_witness :
    (startAbbreviationTracking wEnvPair ⟨1, "(", Reason.character⟩
        = some wTracker ∨
      extractAbbreviationTracking wEnvPair ⟨1, "(", Reason.character⟩
        = some wTracker) ∧
    (getConfig wEnvPair wTracker.actx =
      { type := wEnvPair.getSyntaxType wTracker.actx.stx
      , stx := wTracker.actx.stx
      , context := wTracker.actx.context
      , options := wEnvPair.getOutputOptions wTracker.actx.inline } ∧
      (getConfig wEnvPair wTracker.actx).options = wTracker.options) :=
  ⟨Or.inl rfl,
    configuration_stability wEnvPair ⟨1, "(", Reason.character⟩ wTracker
      (Or.inl rfl)⟩

/-- Witness for the preview-configuration-frame theorem at the sample
configuration and tracker. -/
theorem preview_configuration_frame_witness :
    (wEnvOk.expand (textInRange wEnvOk wTracker.range.1 wTracker.range.2)
        (getConfig wEnvOk wCtxInfo) = Except.ok "ab\t") ∧
    (wEnvOk.expand (textInRange wEnvOk wTracker.range.1 wTracker.range.2)
        (getPreviewConfig (getConfig wEnvOk wCtxInfo))
      = Except.ok "ab  ") ∧
    ((getPreviewConfig (getConfig wEnvOk wCtxInfo)).type
        = (getConfig wEnvOk wCtxInfo).type ∧
      (getPreviewConfig (getConfig wEnvOk wCtxInfo)).stx
        = (getConfig wEnvOk wCtxInfo).stx ∧
      (getPreviewConfig (getConfig wEnvOk wCtxInfo)).context
        = (getConfig wEnvOk wCtxInfo).context ∧
      (getPreviewConfig (getConfig wEnvOk wCtxInfo)).options.rest
        = (getConfig wEnvOk wCtxInfo).options.rest ∧
      (getPreviewConfig (getConfig wEnvOk wCtxInfo)).options.indent
        = "  " ∧
      (getPreviewConfig (getConfig wEnvOk wCtxInfo)).options.baseIndent
        = "" ∧
      (∀ i ph, (getPreviewConfig
          (getConfig wEnvOk wCtxInfo)).options.field i ph = ph) ∧
      createExpandAbbreviationCompletion wEnvOk wTracker
          (getConfig wEnvOk wCtxInfo) =
        Except.ok
          { label := textInRange wEnvOk wTracker.range.1 wTracker.range.2
          , kind := "Expression"
          , tokenize := true
          , range := wTracker.range
          , insertText := "ab\t"
          , detail := "Emmet"
          , documentation := "ab  " }) :=
  ⟨rfl, rfl,
    preview_configuration_frame (getConfig wEnvOk wCtxInfo) wEnvOk
      wTracker "ab\t" "ab  " rfl rfl⟩

/-- Witness for the extraction-miss theorem: explicit invoke against an
environment whose extraction facility finds no boundary. -/
theorem extraction_miss_witness :
    ((⟨1, "d", Reason.invoke⟩ : CompletionContext).reason
        = Reason.invoke) ∧
    (∀ a, wEnvFail.resolveCtx 1 = some a →
        wEnvFail.extract 1 (getConfig wEnvFail a) = none) ∧
    ((provideCompletionItems wEnvFail none
        ⟨1, "d", Reason.invoke⟩).tracker = none ∧
      (provideCompletionItems wEnvFail none
        ⟨1, "d", Reason.invoke⟩).items = [] ∧
      (provideCompletionItems wEnvFail none
        ⟨1, "d", Reason.invoke⟩).events = []) :=
  ⟨rfl, fun _ _ => rfl,
    extraction_miss wEnvFail ⟨1, "d", Reason.invoke⟩ rfl (fun _ _ => rfl)⟩

/-- Witness for the success-preserves-tracker theorem: a live tracker
whose text expands successfully while the caret is away from the range
end. -/
theorem success_preserves_tracker_witness :
    (some wTracker = some wTracker) ∧
    (createExpandAbbreviationCompletion wEnvOk wTracker
        (getConfig wEnvOk wTracker.actx) =
      Except.ok
        { label := "ab"
        , kind := "Expression"
        , tokenize := true
        , range := (0, 2)
        , insertText := "ab\t"
        , detail := "Emmet"
        , documentation := "ab  " }) ∧
    ((provideCompletionItems wEnvOk (some wTracker)
        ⟨1, "a", Reason.character⟩).tracker = some wTracker ∧
      TrackEvent.stop ∉ (provideCompletionItems wEnvOk (some wTracker)
        ⟨1, "a", Reason.character⟩).events) :=
  ⟨rfl, rfl,
    success_preserves_tracker wEnvOk (some wTracker)
      ⟨1, "a", Reason.character⟩ wTracker
      { label := "ab"
      , kind := "Expression"
      , tokenize := true
      , range := (0, 2)
      , insertText := "ab\t"
      , detail := "Emmet"
      , documentation := "ab  " } rfl rfl⟩

end NovaEmmet
